import Mathlib

/-!
Verification of the transaction / request-funnel core of a Firestore Node.js
client (`src/dev/src/index.ts`).  The TypeScript code is shallowly embedded:
promise-returning methods become explicit state-passing functions, stream
event wiring becomes a fold over an event trace, and JS numbers are modelled
as rationals where integrality checks matter.
-/

namespace FirestoreSpec

/-- HTTP header key for the resource routing header
(`CLOUD_RESOURCE_HEADER`, index.ts line 133). -/
def CLOUD_RESOURCE_HEADER : String := "google-cloud-resource-prefix"

/-- The maximum number of times to retry idempotent requests
(`MAX_REQUEST_RETRIES`, index.ts line 138). -/
def MAX_REQUEST_RETRIES : Nat := 5

/-- The maximum number of times to attempt a transaction before failing
(`DEFAULT_MAX_TRANSACTION_ATTEMPTS`, index.ts line 143).  Kept as a rational
because it flows into JS-number arithmetic (`maxAttempts || default`). -/
def DEFAULT_MAX_TRANSACTION_ATTEMPTS : ℚ := 5

/- ## Firestore._retry (index.ts lines 1423-1461)

`_retry` runs `func` up to `MAX_REQUEST_RETRIES` times, remembering the last
error; a permanent RPC error breaks the loop; when the loop exits without a
success the promise rejects with the last error.  `func` is modelled as a map
from the attempt index to that attempt's outcome and `isPermanentRpcError`
(imported from util.ts, treated abstractly per the spec's error taxonomy) as
a predicate on errors.  The result pairs the loop outcome (`Except.error
none` corresponds to rejecting an undefined `lastError`, reachable only with
zero fuel) with the number of calls made to `func`. -/

variable {ε α : Type}

/-- One pass of the `for` loop of `Firestore._retry`: `attempt` is the next
attempt index, the `Nat` fuel is the number of loop iterations remaining and
the `Option ε` is the current `lastError`. -/
def retryLoop (perm : ε → Bool) (f : Nat → Except ε α) :
    Nat → Nat → Option ε → Except (Option ε) α × Nat
  | _, 0, lastError => (Except.error lastError, 0)
  | attempt, fuel + 1, _ =>
    match f attempt with
    | Except.ok v => (Except.ok v, 1)
    | Except.error e =>
      if perm e then (Except.error (some e), 1)
      else
        let r := retryLoop perm f (attempt + 1) fuel (some e)
        (r.1, r.2 + 1)

/-- Embedding of `Firestore._retry` (index.ts lines 1423-1461). -/
def firestoreRetry (perm : ε → Bool) (f : Nat → Except ε α) :
    Except (Option ε) α × Nat :=
  retryLoop perm f 0 MAX_REQUEST_RETRIES none

/- ## Firestore._initializeStream (index.ts lines 1479-1571)

The stream wiring is embedded as a fold over the trace of events delivered by
the backend stream.  `writeSuccess` / `writeFailure` are the callback results
of the `backendStream.write` issued for bidirectional streams; traces of
unidirectional streams contain no write events. -/

/-- An event observed on the backend stream: `dataEvent` is a `data`
listener call, `errorEvent` an `error` listener call, `endEvent`,
`closeEvent` and `finishEvent` the three listeners wired to `streamEnded`,
and `writeSuccess` / `writeFailure` the outcome passed to the
`backendStream.write` callback (index.ts lines 1542-1568). -/
inductive StreamEvent (ε : Type) where
  | dataEvent
  | errorEvent (e : ε)
  | endEvent
  | closeEvent
  | finishEvent
  | writeSuccess
  | writeFailure (e : ε)
deriving DecidableEq

/-- State of a JS promise: settling is a no-op once settled. -/
inductive PromiseState (ε : Type) where
  | pending
  | resolved
  | rejected (e : ε)
deriving DecidableEq

/-- The `resolve` of the `_initializeStream` promise executor. -/
def settleResolve : PromiseState ε → PromiseState ε
  | PromiseState.pending => PromiseState.resolved
  | s => s

/-- The `reject` of the `_initializeStream` promise executor. -/
def settleReject (e : ε) : PromiseState ε → PromiseState ε
  | PromiseState.pending => PromiseState.rejected e
  | s => s

/-- State accumulated by `_initializeStream`'s listeners: the
`streamInitialized` flag, the setup promise, the errors forwarded to the
caller-visible `resultStream`, and the `lifetime` deferred. -/
structure InitStreamState (ε : Type) where
  streamInitialized : Bool
  promise : PromiseState ε
  surfacedErrors : List ε
  lifetimeResolved : Bool
deriving DecidableEq

/-- Handler `streamReady` (index.ts lines 1495-1501): first confirmation marks the
stream initialized and resolves the setup promise. -/
def streamReady (s : InitStreamState ε) : InitStreamState ε :=
  if s.streamInitialized then s
  else { s with streamInitialized := true, promise := settleResolve s.promise }

/-- Handler `streamEnded` (index.ts lines 1503-1512): resolves the setup promise and
the lifetime deferred; it does not touch `streamInitialized`. -/
def streamEnded (s : InitStreamState ε) : InitStreamState ε :=
  { s with promise := settleResolve s.promise, lifetimeResolved := true }

/-- Handler `streamFailed` (index.ts lines 1514-1540): before initialization the
setup promise is rejected; afterwards the error is re-emitted on the
result stream handed to the caller. -/
def streamFailed (e : ε) (s : InitStreamState ε) : InitStreamState ε :=
  if s.streamInitialized then { s with surfacedErrors := s.surfacedErrors ++ [e] }
  else { s with promise := settleReject e s.promise }

/-- Dispatch of one stream event to the listeners wired in
`_initializeStream` (index.ts lines 1542-1568). -/
def initializeStreamStep (s : InitStreamState ε) : StreamEvent ε → InitStreamState ε
  | StreamEvent.dataEvent => streamReady s
  | StreamEvent.errorEvent e => streamFailed e s
  | StreamEvent.endEvent => streamEnded s
  | StreamEvent.closeEvent => streamEnded s
  | StreamEvent.finishEvent => streamEnded s
  | StreamEvent.writeSuccess => streamReady s
  | StreamEvent.writeFailure e => streamFailed e s

/-- State of `_initializeStream` before any event: not initialized, setup
promise pending, no surfaced errors, lifetime pending. -/
def initStreamStart : InitStreamState ε :=
  ⟨false, PromiseState.pending, [], false⟩

/-- Embedding of `Firestore._initializeStream`, run over a trace of backend-stream
events. -/
def initializeStreamRun (events : List (StreamEvent ε)) : InitStreamState ε :=
  events.foldl initializeStreamStep initStreamStart

/-- Events whose handler resolves a pending setup promise: `data`, the write
callback success, and the three `streamEnded` listeners. -/
def isResolvingEvent : StreamEvent ε → Bool
  | StreamEvent.dataEvent => true
  | StreamEvent.endEvent => true
  | StreamEvent.closeEvent => true
  | StreamEvent.finishEvent => true
  | StreamEvent.writeSuccess => true
  | StreamEvent.errorEvent _ => false
  | StreamEvent.writeFailure _ => false

/-- The claim's notion of "the stream fails before the first byte of data is
received (and before a written request is flushed)": some failure event
occurs with no `data` event and no flushed write before it. -/
def failsBeforeFirstByte : List (StreamEvent ε) → Bool
  | [] => false
  | StreamEvent.errorEvent _ :: _ => true
  | StreamEvent.writeFailure _ :: _ => true
  | StreamEvent.dataEvent :: _ => false
  | StreamEvent.writeSuccess :: _ => false
  | StreamEvent.endEvent :: rest => failsBeforeFirstByte rest
  | StreamEvent.closeEvent :: rest => failsBeforeFirstByte rest
  | StreamEvent.finishEvent :: rest => failsBeforeFirstByte rest

/- ## Firestore.requestStream (index.ts lines 1630-1688)

Each retry attempt opens a fresh backend stream and awaits
`_initializeStream`: a rejected setup promise rejects that attempt's
`result` deferred (caught by `_retry`), a resolved one resolves it with the
result stream.  An attempt's trace is given as first event plus remaining
events; the first event always settles the setup promise (an empty trace
would leave the funnel waiting forever). -/

/-- Outcome of one `requestStream` attempt over the trace
`first :: rest` of its backend stream: the attempt fails with `e` exactly
when the setup promise was rejected with `e`; otherwise the caller receives
the stream, whose subsequent behaviour is summarized by the final
`InitStreamState`.  (The setup promise of a nonempty trace is never left
pending: the first event settles it.) -/
def streamAttemptOutcome (first : StreamEvent ε) (rest : List (StreamEvent ε)) :
    Except ε (InitStreamState ε) :=
  let s := initializeStreamRun (first :: rest)
  match s.promise with
  | PromiseState.rejected e => Except.error e
  | _ => Except.ok s

/-- Embedding of `Firestore.requestStream`: `_retry` wrapped around per-attempt stream
setup, `attempts i` being the backend-stream trace of attempt `i`. -/
def requestStreamRun (perm : ε → Bool)
    (attempts : Nat → StreamEvent ε × List (StreamEvent ε)) :
    Except (Option ε) (InitStreamState ε) × Nat :=
  firestoreRetry perm (fun i => streamAttemptOutcome (attempts i).1 (attempts i).2)

/- ## Firestore.runTransaction option processing (index.ts lines 1045-1097)

The options object is embedded with typed fields for the checks that always
pass by typing (`validateObject`, `validateBoolean` on `readOnly`,
`validateTimestamp` on `readTime`) and a rational for `maxAttempts`, whose
integrality and minimum are checked at run time. -/

/-- Structure `TransactionOptions` as received by `runTransaction`: `readOnly` and
`readTime` validated by typing, `maxAttempts` a JS number (modelled as a
rational) still to be validated. -/
structure TransactionOptions where
  readOnly : Option Bool
  readTime : Option Unit
  maxAttempts : Option ℚ
deriving DecidableEq

/-- Modelled from the spec: `validateInteger` lives in validate.ts, which is
not among the sources; the spec constrains the field to
`maxAttempts?: integer ≥ 1`, so an absent value passes and a present value
must be an integer that is at least 1. -/
def validateInteger (v : Option ℚ) : Bool :=
  match v with
  | none => true
  | some q => decide (q.den = 1) && decide (1 ≤ q)

/-- JS `a || b` on an optional number: `undefined` and `0` are falsy. -/
def jsOrDefault (v : Option ℚ) (d : ℚ) : ℚ :=
  match v with
  | some q => if q = 0 then d else q
  | none => d

/-- The effective transaction parameters handed to
`transaction.runTransaction` (index.ts lines 1090-1096). -/
structure TransactionRunConfig where
  maxAttempts : ℚ
  readOnly : Bool
  readTime : Option Unit
deriving DecidableEq

/-- Option processing of `Firestore.runTransaction` (index.ts lines
1055-1087): no options give the defaults; a truthy `readOnly` forces
`maxAttempts = 1` and keeps `readTime`; otherwise `maxAttempts` is validated
(`optional: true, minValue: 1`) and defaulted.  An `Except.error` is a
validation error thrown synchronously, before any server communication. -/
def runTransactionSetup (opts : Option TransactionOptions) :
    Except String TransactionRunConfig :=
  match opts with
  | none => Except.ok ⟨DEFAULT_MAX_TRANSACTION_ATTEMPTS, false, none⟩
  | some o =>
    match o.readOnly with
    | some true => Except.ok ⟨1, true, o.readTime⟩
    | _ =>
      if validateInteger o.maxAttempts then
        Except.ok
          ⟨jsOrDefault o.maxAttempts DEFAULT_MAX_TRANSACTION_ATTEMPTS, false, none⟩
      else
        Except.error
          ("Value for argument \"transactionOptions.maxAttempts\" is not a valid integer.")

/- ## Path parsing for doc() / collection() (index.ts lines 684-724)

Modelled from the spec: the Path Parser (path.ts) is not among the sources.
Per the spec it "validates and decomposes slash-separated resource
identifiers"; a document path has an even segment count, a collection path
an odd one; an invalid path shape is thrown synchronously. -/

/-- Accumulator-based split of a character list at `/`, total and
structurally recursive so that concrete paths evaluate by `decide`. -/
def splitSegsAux (cur : List Char) : List Char → List String
  | [] => [String.mk cur.reverse]
  | c :: cs =>
    if c = '/' then String.mk cur.reverse :: splitSegsAux [] cs
    else splitSegsAux (c :: cur) cs

/-- Modelled from the spec: decomposition of a slash-separated resource
identifier into its segments. -/
def splitSegs (path : String) : List String :=
  splitSegsAux [] path.data

/-- Modelled from the spec: a resource path is valid when its decomposition
has no empty segment (this rejects the empty string, leading or trailing
slashes, and double slashes). -/
def isValidResourcePath (path : String) : Bool :=
  (splitSegs path).all (fun s => !s.isEmpty)

/-- Modelled from the spec: a document path has a positive, even segment
count (`ResourcePath.isDocument`). -/
def isDocumentPath (segs : List String) : Bool :=
  decide (0 < segs.length) && decide (segs.length % 2 = 0)

/-- Modelled from the spec: a collection path has an odd segment count
(`ResourcePath.isCollection`). -/
def isCollectionPath (segs : List String) : Bool :=
  decide (segs.length % 2 = 1)

/-- Embedding of `Firestore.doc` (index.ts lines 684-695): validate the path, decompose
it, require a document shape, and return a reference to exactly that path
(the segments of `ResourcePath.EMPTY.append(documentPath)`). -/
def docMethod (path : String) : Except String (List String) :=
  if !isValidResourcePath path then
    Except.error ("Value for argument \"documentPath\" is not a valid resource path.")
  else
    let segs := splitSegs path
    if !isDocumentPath segs then
      Except.error ("Your path does not contain an even number of components.")
    else Except.ok segs

/-- Embedding of `Firestore.collection` (index.ts lines 713-724). -/
def collectionMethod (path : String) : Except String (List String) :=
  if !isValidResourcePath path then
    Except.error ("Value for argument \"collectionPath\" is not a valid resource path.")
  else
    let segs := splitSegs path
    if !isCollectionPath segs then
      Except.error ("Your path does not contain an odd number of components.")
    else Except.ok segs

/- ## Settings handling (index.ts lines 558-643), client state and
lifecycle (lines 403, 430, 462, 1177-1213, 1296-1306, 1328-1366)

Hosts are embedded as the hostname / optional-port pair that
`new URL("http://" + host)` extracts from a `validateHost`-accepted string;
`validateHost` (util.ts, not among the sources) and the string validators
always pass by typing. -/

/-- A transport host: the hostname and optional port that URL parsing
extracts from a `host` setting or from `FIRESTORE_EMULATOR_HOST`. -/
structure HostSpec where
  hostname : String
  port : Option Nat
deriving DecidableEq

/-- The fields of `firestore.Settings` that the embedded methods read or
write; an absent optional field is `none`. -/
structure Settings where
  projectId : Option String
  host : Option HostSpec
  ssl : Option Bool
  servicePath : Option String
  apiEndpoint : Option String
  port : Option Nat
  maxIdleChannels : Option Nat
  customHeaders : Option (List (String × String))
deriving DecidableEq

/-- JS object spread `{...old, ...s}`: a field present in `s` overrides the
one in `old` (index.ts line 570). -/
def mergeSettings (old s : Settings) : Settings :=
  ⟨s.projectId <|> old.projectId, s.host <|> old.host, s.ssl <|> old.ssl,
   s.servicePath <|> old.servicePath, s.apiEndpoint <|> old.apiEndpoint,
   s.port <|> old.port, s.maxIdleChannels <|> old.maxIdleChannels,
   s.customHeaders <|> old.customHeaders⟩

/-- The per-client mutable state read and written by the embedded methods:
the stored settings, the settings-frozen flag, the detected project ID, the
listener and BulkWriter counters, and whether the client pool has been
terminated. -/
structure ClientState where
  settings : Settings
  settingsFrozen : Bool
  projectId : Option String
  registeredListenersCount : Int
  bulkWritersCount : Int
  poolTerminated : Bool
deriving DecidableEq

/-- Embedding of `Firestore.validateAndApplySettings` (index.ts lines 575-643), with the
`FIRESTORE_EMULATOR_HOST` environment variable passed as `env`.  When the
variable is set it replaces `host` and forces `ssl: false`; the URL derived
from the winning host sets `servicePath`, sets `port` only when the user
settings carry none, and `host` / `apiEndpoint` are deleted. -/
def validateAndApplySettings (env : Option HostSpec) (st : ClientState)
    (s0 : Settings) : ClientState :=
  let st1 := match s0.projectId with
    | some pid => { st with projectId := some pid }
    | none => st
  let s1 := match env with
    | some h => { s0 with host := some h, ssl := some false }
    | none => s0
  let url : Option HostSpec := match env with
    | some h => some h
    | none => s0.host
  let s2 := match url with
    | some u =>
      let sA := { s1 with servicePath := some u.hostname }
      let sB := match u.port, s1.port with
        | some p, none => { sA with port := some p }
        | _, _ => sA
      { sB with host := none, apiEndpoint := none }
    | none => s1
  { st1 with settings := s2 }

/-- Embedding of `Firestore.settings` (index.ts lines 558-573): argument validation
(`validateObject` / `validateString`, whose success is the flag
`argsValid`), then the frozen check, then merge-apply-freeze.  The result
pairs the state after the call with the thrown error, if any; a throw leaves
the state untouched because it precedes every mutation. -/
def settingsMethod (env : Option HostSpec) (st : ClientState) (s : Settings)
    (argsValid : Bool) : ClientState × Option String :=
  if !argsValid then
    (st, some ("Value for argument \"settings\" is not a valid object."))
  else if st.settingsFrozen then
    (st, some ("Firestore has already been initialized. You can only call settings() once, and only before calling any other methods on a Firestore object."))
  else
    let st' := validateAndApplySettings env st (mergeSettings st.settings s)
    ({ st' with settingsFrozen := true }, none)

/-- The `Authorization: Bearer owner` header merged under any existing
custom headers (index.ts lines 1339-1342). -/
def authOwnerHeaders (existing : Option (List (String × String))) :
    List (String × String) :=
  ("Authorization", "Bearer owner") :: existing.getD []

/-- Embedding of `Firestore.initializeIfNeeded` (index.ts lines 1328-1366): freezes the
settings, installs the emulator authorization header when `ssl` is `false`,
and detects the project ID when none is stored; `detect` is the outcome of
`gapicClient.getProjectId()` through the client pool. -/
def initializeIfNeeded (st : ClientState) (detect : Except String String) :
    ClientState × Option String :=
  let st1 := { st with settingsFrozen := true }
  let st2 :=
    if st1.settings.ssl = some false then
      { st1 with settings :=
          { st1.settings with
            customHeaders := some (authOwnerHeaders st1.settings.customHeaders) } }
    else st1
  match st2.projectId with
  | some _ => (st2, none)
  | none =>
    match detect with
    | Except.ok pid => ({ st2 with projectId := some pid }, none)
    | Except.error e => (st2, some e)

/-- Embedding of `Firestore.registerListener` (index.ts line 1178). -/
def registerListener (st : ClientState) : ClientState :=
  { st with registeredListenersCount := st.registeredListenersCount + 1 }

/-- Embedding of `Firestore.unregisterListener` (index.ts line 1190). -/
def unregisterListener (st : ClientState) : ClientState :=
  { st with registeredListenersCount := st.registeredListenersCount - 1 }

/-- Embedding of `Firestore._incrementBulkWritersCount` (index.ts line 1201). -/
def incrementBulkWritersCount (st : ClientState) : ClientState :=
  { st with bulkWritersCount := st.bulkWritersCount + 1 }

/-- Embedding of `Firestore._decrementBulkWritersCount` (index.ts line 1212). -/
def decrementBulkWritersCount (st : ClientState) : ClientState :=
  { st with bulkWritersCount := st.bulkWritersCount - 1 }

/-- Embedding of `Firestore.terminate` (index.ts lines 1296-1306): reject while listeners
or BulkWriter instances remain, otherwise delegate to
`_clientPool.terminate()` (modelled by the `poolTerminated` flag). -/
def terminateMethod (st : ClientState) : ClientState × Option String :=
  if st.registeredListenersCount > 0 || st.bulkWritersCount > 0 then
    (st, some ("All onSnapshot() listeners must be unsubscribed, and all BulkWriter instances must be closed before terminating the client."))
  else
    ({ st with poolTerminated := true }, none)

/- ## Call options of the request funnel (index.ts lines 1373-1396, 668-670)

Header objects are embedded as association lists built in spread order;
a later entry for the same key overrides an earlier one, as with JS object
spread. -/

/-- Constant `DEFAULT_DATABASE_ID` (imported from path.ts, not among the sources):
the spec's resource root is `projects/<projectId>/databases/(default)`. -/
def DEFAULT_DATABASE_ID : String := "(default)"

/-- Embedding of `Firestore.formattedName` (index.ts lines 668-670). -/
def formattedName (projectId : String) : String :=
  "projects/" ++ projectId ++ "/databases/" ++ DEFAULT_DATABASE_ID

/-- The headers object built by `Firestore.createCallOptions` (index.ts
lines 1377-1385): the routing header, spread-overridden by the client-wide
and then the per-method custom headers. -/
def callOptionsHeaders (projectId : String)
    (customHeaders methodCustomHeaders : List (String × String)) :
    List (String × String) :=
  (CLOUD_RESOURCE_HEADER, formattedName projectId) ::
    (customHeaders ++ methodCustomHeaders)

/-- Value of key `k` in a spread-ordered header list: the last binding
wins. -/
def headerValue (hs : List (String × String)) (k : String) : Option String :=
  (hs.reverse.find? (fun p => p.1 == k)).map (fun p => p.2)

/- ## Lemmas about Firestore._retry -/

/-- Unfolding: a successful call ends the loop. -/
theorem retryLoop_ok_step (perm : ε → Bool) (f : Nat → Except ε α)
    (a fuel : Nat) (le : Option ε) (v : α) (h : f a = Except.ok v) :
    retryLoop perm f a (fuel + 1) le = (Except.ok v, 1) := by
  simp [retryLoop, h]

/-- Unfolding: a permanent error ends the loop. -/
theorem retryLoop_perm_step (perm : ε → Bool) (f : Nat → Except ε α)
    (a fuel : Nat) (le : Option ε) (e : ε)
    (h : f a = Except.error e) (hp : perm e = true) :
    retryLoop perm f a (fuel + 1) le = (Except.error (some e), 1) := by
  simp [retryLoop, h, hp]

/-- Unfolding: a transient error recurses with the error remembered. -/
theorem retryLoop_transient_step (perm : ε → Bool) (f : Nat → Except ε α)
    (a fuel : Nat) (le : Option ε) (e : ε)
    (h : f a = Except.error e) (hp : perm e = false) :
    retryLoop perm f a (fuel + 1) le =
      ((retryLoop perm f (a + 1) fuel (some e)).1,
       (retryLoop perm f (a + 1) fuel (some e)).2 + 1) := by
  simp [retryLoop, h, hp]

/-- The loop makes at most `fuel` calls to `func`. -/
theorem retryLoop_calls_le (perm : ε → Bool) (f : Nat → Except ε α) :
    ∀ fuel a le, (retryLoop perm f a fuel le).2 ≤ fuel := by
  intro fuel
  induction fuel with
  | zero => intro a le; simp [retryLoop]
  | succ n ih =>
    intro a le
    simp only [retryLoop]
    cases h : f a with
    | ok v => simp
    | error e =>
      by_cases hp : perm e
      · simp [hp]
      · simp only [hp, if_false, Bool.false_eq_true]
        exact Nat.succ_le_succ (ih (a + 1) (some e))

/-- With fuel remaining the loop calls `func` at least once. -/
theorem retryLoop_calls_pos (perm : ε → Bool) (f : Nat → Except ε α)
    (fuel a : Nat) (le : Option ε) (hfuel : 0 < fuel) :
    1 ≤ (retryLoop perm f a fuel le).2 := by
  cases fuel with
  | zero => exact absurd hfuel (by simp)
  | succ n =>
    simp only [retryLoop]
    cases h : f a with
    | ok v => simp
    | error e =>
      by_cases hp : perm e
      · simp [hp]
      · simp [hp]

/-- A successful attempt ends the loop after exactly that call. -/
theorem retryLoop_ok (perm : ε → Bool) (f : Nat → Except ε α)
    (fuel a : Nat) (le : Option ε) (v : α)
    (hfuel : 0 < fuel) (h : f a = Except.ok v) :
    retryLoop perm f a fuel le = (Except.ok v, 1) := by
  cases fuel with
  | zero => exact absurd hfuel (by simp)
  | succ n => simp [retryLoop, h]

/-- A permanent error at attempt `j`, after transient errors only, stops the
loop at call `j + 1` and rejects with that error. -/
theorem retryLoop_permanent (perm : ε → Bool) (f : Nat → Except ε α) :
    ∀ fuel a le j e, a ≤ j → j < a + fuel →
      f j = Except.error e → perm e = true →
      (∀ i, a ≤ i → i < j → ∃ e', f i = Except.error e' ∧ perm e' = false) →
      retryLoop perm f a fuel le = (Except.error (some e), j - a + 1) := by
  intro fuel
  induction fuel with
  | zero => intro a le j e haj hlt _ _ _; omega
  | succ n ih =>
    intro a le j e haj hlt hfj hperm hpre
    rcases Nat.eq_or_lt_of_le haj with heq | hlt2
    · subst heq
      simp [retryLoop, hfj, hperm]
    · obtain ⟨e', hfa, hpa⟩ := hpre a (Nat.le_refl a) hlt2
      have hrec := ih (a + 1) (some e') j e hlt2 (by omega) hfj hperm
        (fun i hi hij => hpre i (by omega) hij)
      simp only [retryLoop, hfa, hpa, if_false, Bool.false_eq_true, hrec]
      have : j - (a + 1) + 1 + 1 = j - a + 1 := by omega
      simp [this]

/-- When every attempt fails with a transient error the loop exhausts its
fuel and rejects with the last error seen. -/
theorem retryLoop_exhausted (perm : ε → Bool) (f : Nat → Except ε α) :
    ∀ fuel a le, 0 < fuel →
      (∀ i, a ≤ i → i < a + fuel → ∃ e', f i = Except.error e' ∧ perm e' = false) →
      ∃ elast, f (a + fuel - 1) = Except.error elast ∧
        retryLoop perm f a fuel le = (Except.error (some elast), fuel) := by
  intro fuel
  induction fuel with
  | zero => intro a le h; omega
  | succ n ih =>
    intro a le _ hall
    obtain ⟨e', hfa, hpa⟩ := hall a (Nat.le_refl a) (by omega)
    cases n with
    | zero =>
      refine ⟨e', by simpa using hfa, ?_⟩
      simp [retryLoop, hfa, hpa]
    | succ m =>
      obtain ⟨elast, hfl, heq⟩ := ih (a + 1) (some e') (by omega)
        (fun i hi hilt => hall i (by omega) (by omega))
      refine ⟨elast, ?_, ?_⟩
      · have : a + 1 + (m + 1) - 1 = a + (m + 1 + 1) - 1 := by omega
        rw [← this]; exact hfl
      · rw [retryLoop_transient_step perm f a (m + 1) le e' hfa hpa, heq]

/-- Claim C3: `Firestore._retry` makes at most `MAX_REQUEST_RETRIES = 5`
attempts; an error classified permanent for the method stops the loop at
that attempt and the promise rejects with it; and when every attempt fails
with a transient error, all five attempts are made and the promise rejects
with the last encountered error. -/
theorem retry_bounded_permanent_lastError (perm : ε → Bool)
    (f : Nat → Except ε α) (j : Nat) (e : ε) :
    (firestoreRetry perm f).2 ≤ MAX_REQUEST_RETRIES
    ∧ (j < MAX_REQUEST_RETRIES → f j = Except.error e → perm e = true →
        (∀ i, i < j → ∃ e', f i = Except.error e' ∧ perm e' = false) →
        firestoreRetry perm f = (Except.error (some e), j + 1))
    ∧ ((∀ i, i < MAX_REQUEST_RETRIES →
          ∃ e', f i = Except.error e' ∧ perm e' = false) →
        ∃ elast, f (MAX_REQUEST_RETRIES - 1) = Except.error elast ∧
          firestoreRetry perm f = (Except.error (some elast), MAX_REQUEST_RETRIES)) := by
  refine ⟨retryLoop_calls_le perm f MAX_REQUEST_RETRIES 0 none, ?_, ?_⟩
  · intro hj hfj hperm hpre
    have h := retryLoop_permanent perm f MAX_REQUEST_RETRIES 0 none j e
      (Nat.zero_le j) (by omega) hfj hperm
      (fun i hi hij => hpre i hij)
    simpa [firestoreRetry] using h
  · intro hall
    have h := retryLoop_exhausted perm f MAX_REQUEST_RETRIES 0 none
      (by simp [MAX_REQUEST_RETRIES])
      (fun i hi hilt => hall i (by omega))
    simpa [firestoreRetry] using h

/-- Witness for claim C3: with every attempt failing and errors equal to
their attempt index, a permanent error at attempt 1 rejects after exactly
two calls. -/
theorem retry_bounded_permanent_lastError_witness :
    firestoreRetry (fun e => e == 1) (fun i => (Except.error i : Except Nat Unit)) =
      (Except.error (some 1), 2) := by
  have h := (retry_bounded_permanent_lastError (fun e => e == 1)
    (fun i => (Except.error i : Except Nat Unit)) 1 1).2.1
  exact h (by decide) rfl (by decide)
    (fun i hi => ⟨i, rfl, by rw [Nat.lt_one_iff.mp hi]; decide⟩)

/- ## Lemmas about Firestore._initializeStream -/

/-- Resolving a settled promise is a no-op. -/
theorem settleResolve_of_settled (p : PromiseState ε)
    (h : p ≠ PromiseState.pending) : settleResolve p = p := by
  cases p with
  | pending => exact absurd rfl h
  | resolved => rfl
  | rejected e => rfl

/-- Rejecting a settled promise is a no-op. -/
theorem settleReject_of_settled (e : ε) (p : PromiseState ε)
    (h : p ≠ PromiseState.pending) : settleReject e p = p := by
  cases p with
  | pending => exact absurd rfl h
  | resolved => rfl
  | rejected e' => rfl

/-- Handler `streamReady` does not change a settled promise. -/
theorem streamReady_promise_of_settled (s : InitStreamState ε)
    (h : s.promise ≠ PromiseState.pending) :
    (streamReady s).promise = s.promise := by
  unfold streamReady
  split
  · rfl
  · simp [settleResolve_of_settled _ h]

/-- Handler `streamEnded` does not change a settled promise. -/
theorem streamEnded_promise_of_settled (s : InitStreamState ε)
    (h : s.promise ≠ PromiseState.pending) :
    (streamEnded s).promise = s.promise := by
  unfold streamEnded
  simp [settleResolve_of_settled _ h]

/-- Handler `streamFailed` does not change a settled promise. -/
theorem streamFailed_promise_of_settled (e : ε) (s : InitStreamState ε)
    (h : s.promise ≠ PromiseState.pending) :
    (streamFailed e s).promise = s.promise := by
  unfold streamFailed
  split
  · rfl
  · simp [settleReject_of_settled _ _ h]

/-- No event changes a settled setup promise. -/
theorem initializeStreamStep_promise_of_settled (s : InitStreamState ε)
    (ev : StreamEvent ε) (h : s.promise ≠ PromiseState.pending) :
    (initializeStreamStep s ev).promise = s.promise := by
  cases ev <;>
    simp [initializeStreamStep, streamReady_promise_of_settled _ h,
      streamEnded_promise_of_settled _ h, streamFailed_promise_of_settled _ _ h]

/-- A settled setup promise stays as it is for the rest of the trace. -/
theorem foldl_promise_of_settled (es : List (StreamEvent ε)) :
    ∀ s : InitStreamState ε, s.promise ≠ PromiseState.pending →
      (es.foldl initializeStreamStep s).promise = s.promise := by
  induction es with
  | nil => intro s _; rfl
  | cons ev es ih =>
    intro s h
    rw [List.foldl_cons,
      ih _ (by rw [initializeStreamStep_promise_of_settled s ev h]; exact h)]
    exact initializeStreamStep_promise_of_settled s ev h

/-- The first stream event settles the setup promise: a failure first event
rejects with its error, any other first event resolves. -/
theorem initializeStreamRun_cons_promise (ev : StreamEvent ε)
    (es : List (StreamEvent ε)) :
    (initializeStreamRun (ev :: es)).promise =
      match ev with
      | StreamEvent.errorEvent e => PromiseState.rejected e
      | StreamEvent.writeFailure e => PromiseState.rejected e
      | _ => PromiseState.resolved := by
  cases ev <;>
    · rw [initializeStreamRun, List.foldl_cons, foldl_promise_of_settled es _ (by
        simp [initializeStreamStep, streamReady, streamEnded, streamFailed,
          initStreamStart, settleResolve, settleReject])]
      simp [initializeStreamStep, streamReady, streamEnded, streamFailed,
        initStreamStart, settleResolve, settleReject]

/-- Flag `streamInitialized`, once set, is never cleared by an event. -/
theorem initializeStreamStep_initialized (s : InitStreamState ε)
    (ev : StreamEvent ε) (h : s.streamInitialized = true) :
    (initializeStreamStep s ev).streamInitialized = true := by
  cases ev <;>
    simp [initializeStreamStep, streamReady, streamEnded, streamFailed, h]

/-- An error already surfaced on the result stream stays surfaced. -/
theorem initializeStreamStep_surfaced (s : InitStreamState ε)
    (ev : StreamEvent ε) (x : ε) (h : x ∈ s.surfacedErrors) :
    x ∈ (initializeStreamStep s ev).surfacedErrors := by
  cases ev <;>
    simp only [initializeStreamStep, streamReady, streamEnded, streamFailed] <;>
    first
      | exact h
      | (split <;> simp [h])

/-- Surfaced errors are never dropped along a trace. -/
theorem foldl_surfaced_mono (es : List (StreamEvent ε)) :
    ∀ (s : InitStreamState ε) (x : ε), x ∈ s.surfacedErrors →
      x ∈ (es.foldl initializeStreamStep s).surfacedErrors := by
  induction es with
  | nil => intro s x h; exact h
  | cons ev es ih =>
    intro s x h
    rw [List.foldl_cons]
    exact ih _ x (initializeStreamStep_surfaced s ev x h)

/-- After initialization, every `error` event of the remaining trace is
re-emitted on the result stream handed to the caller. -/
theorem foldl_surfaces_errors (es : List (StreamEvent ε)) :
    ∀ (s : InitStreamState ε) (e : ε), s.streamInitialized = true →
      StreamEvent.errorEvent e ∈ es →
      e ∈ (es.foldl initializeStreamStep s).surfacedErrors := by
  induction es with
  | nil => intro s e _ hmem; simp at hmem
  | cons ev es ih =>
    intro s e hinit hmem
    rw [List.foldl_cons]
    rcases List.mem_cons.mp hmem with heq | htail
    · subst heq
      refine foldl_surfaced_mono es _ e ?_
      simp [initializeStreamStep, streamFailed, hinit]
    · exact ih _ e (initializeStreamStep_initialized s ev hinit) htail

/-- Claim C4, amended: the stream-setup promise resolves only after a
confirmation event was observed — a `data` event, a successfully flushed
request, or an `end` / `close` / `finish` signal (the last three are the
amendment) — and when the stream fails before any such confirmation, i.e.
the failure is the first event delivered, the setup promise rejects with
that error. -/
theorem stream_setup_resolution (events : List (StreamEvent ε)) (e : ε) :
    ((initializeStreamRun events).promise = PromiseState.resolved →
      ∃ ev ∈ events, isResolvingEvent ev = true)
    ∧ (events.head? = some (StreamEvent.errorEvent e) →
        (initializeStreamRun events).promise = PromiseState.rejected e)
    ∧ (events.head? = some (StreamEvent.writeFailure e) →
        (initializeStreamRun events).promise = PromiseState.rejected e) := by
  refine ⟨?_, ?_, ?_⟩
  · intro hres
    cases events with
    | nil => simp [initializeStreamRun, initStreamStart] at hres
    | cons ev es =>
      rw [initializeStreamRun_cons_promise] at hres
      cases ev <;> simp_all [isResolvingEvent]
  · intro hhead
    cases events with
    | nil => simp at hhead
    | cons ev es =>
      simp only [List.head?_cons, Option.some.injEq] at hhead
      subst hhead
      rw [initializeStreamRun_cons_promise]
  · intro hhead
    cases events with
    | nil => simp at hhead
    | cons ev es =>
      simp only [List.head?_cons, Option.some.injEq] at hhead
      subst hhead
      rw [initializeStreamRun_cons_promise]

/-- Counterexample to claim C4 as stated: a trace consisting of a single
`end` event resolves the setup promise although no `data` event was observed
and no request was flushed. -/
theorem stream_setup_resolution_counterexample :
    (initializeStreamRun ([StreamEvent.endEvent] : List (StreamEvent Nat))).promise
        = PromiseState.resolved
    ∧ StreamEvent.dataEvent ∉ ([StreamEvent.endEvent] : List (StreamEvent Nat))
    ∧ StreamEvent.writeSuccess ∉ ([StreamEvent.endEvent] : List (StreamEvent Nat)) := by
  decide

/-- Witness for claim C4: a trace beginning with a `data` event resolves the
setup promise, and indeed contains a resolving event. -/
theorem stream_setup_resolution_witness :
    ∃ ev ∈ ([StreamEvent.dataEvent] : List (StreamEvent Nat)),
      isResolvingEvent ev = true :=
  (stream_setup_resolution [StreamEvent.dataEvent] 0).1 (by decide)

/-- Handler `streamReady` always leaves the stream marked initialized. -/
theorem streamReady_initialized (s : InitStreamState ε) :
    (streamReady s).streamInitialized = true := by
  unfold streamReady
  split
  · assumption
  · rfl

/-- A non-failure first event resolves the setup promise. -/
theorem initializeStreamRun_cons_promise_resolved (ev : StreamEvent ε)
    (es : List (StreamEvent ε)) (h : isResolvingEvent ev = true) :
    (initializeStreamRun (ev :: es)).promise = PromiseState.resolved := by
  rw [initializeStreamRun_cons_promise]
  cases ev <;> simp_all [isResolvingEvent]

/-- A failure first event rejects the setup promise with its error. -/
theorem initializeStreamRun_cons_promise_rejected (ev : StreamEvent ε)
    (es : List (StreamEvent ε)) (e : ε)
    (h : ev = StreamEvent.errorEvent e ∨ ev = StreamEvent.writeFailure e) :
    (initializeStreamRun (ev :: es)).promise = PromiseState.rejected e := by
  rcases h with h | h <;> rw [h, initializeStreamRun_cons_promise]

/-- An attempt whose setup promise resolved hands the stream to the
caller. -/
theorem streamAttemptOutcome_of_resolved (first : StreamEvent ε)
    (rest : List (StreamEvent ε))
    (h : (initializeStreamRun (first :: rest)).promise = PromiseState.resolved) :
    streamAttemptOutcome first rest =
      Except.ok (initializeStreamRun (first :: rest)) := by
  simp only [streamAttemptOutcome]
  rw [h]

/-- An attempt whose setup promise rejected fails with that error. -/
theorem streamAttemptOutcome_of_rejected (first : StreamEvent ε)
    (rest : List (StreamEvent ε)) (e : ε)
    (h : (initializeStreamRun (first :: rest)).promise = PromiseState.rejected e) :
    streamAttemptOutcome first rest = Except.error e := by
  simp only [streamAttemptOutcome]
  rw [h]

/-- Claim C2, amended: when the underlying stream fails before the first
byte of data, before a flushed request, and before any end / close / finish
signal — that is, the failure (an `error` event or a failed write callback)
is the first event the attempt delivers — the stream-setup promise rejects
with that error, the attempt fails, and, when the error is not classified
permanent, the funnel makes a further attempt; when the stream fails after
data has been received (no failure having occurred before the data event),
the request succeeds on that attempt without a retry and the error is
surfaced to the caller on the returned stream. -/
theorem requestStream_retry_semantics (perm : ε → Bool)
    (attempts : Nat → StreamEvent ε × List (StreamEvent ε)) (e : ε)
    (l1 l2 : List (StreamEvent ε)) :
    (((attempts 0).1 = StreamEvent.errorEvent e
        ∨ (attempts 0).1 = StreamEvent.writeFailure e) →
      (initializeStreamRun ((attempts 0).1 :: (attempts 0).2)).promise =
          PromiseState.rejected e
      ∧ streamAttemptOutcome (attempts 0).1 (attempts 0).2 = Except.error e
      ∧ (perm e = false → 2 ≤ (requestStreamRun perm attempts).2))
    ∧ ((attempts 0).1 :: (attempts 0).2 = l1 ++ StreamEvent.dataEvent :: l2 →
        (∀ x ∈ l1, isResolvingEvent x = true) →
        StreamEvent.errorEvent e ∈ l2 →
        requestStreamRun perm attempts =
          (Except.ok (initializeStreamRun (l1 ++ StreamEvent.dataEvent :: l2)), 1)
        ∧ e ∈ (initializeStreamRun
            (l1 ++ StreamEvent.dataEvent :: l2)).surfacedErrors) := by
  constructor
  · intro hfail
    have hprom := initializeStreamRun_cons_promise_rejected (attempts 0).1
      (attempts 0).2 e hfail
    have houtcome := streamAttemptOutcome_of_rejected (attempts 0).1
      (attempts 0).2 e hprom
    refine ⟨hprom, houtcome, ?_⟩
    intro hperm
    have hg0 : (fun i => streamAttemptOutcome (attempts i).1 (attempts i).2) 0 =
        (Except.error e : Except ε (InitStreamState ε)) := houtcome
    have hunfold := retryLoop_transient_step perm
      (fun i => streamAttemptOutcome (attempts i).1 (attempts i).2) 0 4 none e hg0 hperm
    have hpos := retryLoop_calls_pos perm
      (fun i => streamAttemptOutcome (attempts i).1 (attempts i).2) 4 1 (some e)
      (by norm_num)
    unfold requestStreamRun firestoreRetry
    rw [show (MAX_REQUEST_RETRIES : Nat) = 4 + 1 from rfl, hunfold]
    exact Nat.succ_le_succ hpos
  · intro h0 hl1 hmem
    have hhead : isResolvingEvent ((attempts 0).1) = true := by
      cases l1 with
      | nil =>
        have h1 := (List.cons.injEq _ _ _ _).mp h0
        rw [h1.1]
        rfl
      | cons x xs =>
        have h1 := (List.cons.injEq _ _ _ _).mp (by simpa using h0)
        rw [h1.1]
        exact hl1 x (List.mem_cons_self x xs)
    have hprom := initializeStreamRun_cons_promise_resolved (attempts 0).1
      (attempts 0).2 hhead
    have houtcome := streamAttemptOutcome_of_resolved (attempts 0).1
      (attempts 0).2 hprom
    rw [h0] at houtcome
    have hg0 : (fun i => streamAttemptOutcome (attempts i).1 (attempts i).2) 0 =
        Except.ok (initializeStreamRun (l1 ++ StreamEvent.dataEvent :: l2)) :=
      houtcome
    constructor
    · unfold requestStreamRun firestoreRetry
      rw [show (MAX_REQUEST_RETRIES : Nat) = 4 + 1 from rfl]
      exact retryLoop_ok_step perm _ 0 4 none _ hg0
    · rw [initializeStreamRun, List.foldl_append, List.foldl_cons]
      refine foldl_surfaces_errors l2 _ e ?_ hmem
      exact streamReady_initialized _

/-- Counterexample to claim C2 as stated: on the trace `end` followed by
`error`, the stream fails before the first byte of data and before any
flushed request, yet the stream-setup promise resolves and no retry
occurs. -/
theorem requestStream_retry_semantics_counterexample :
    failsBeforeFirstByte
        ([StreamEvent.endEvent, StreamEvent.errorEvent 7] : List (StreamEvent Nat)) = true
    ∧ (initializeStreamRun
        ([StreamEvent.endEvent, StreamEvent.errorEvent 7] : List (StreamEvent Nat))).promise
        = PromiseState.resolved
    ∧ (requestStreamRun (fun _ => false)
        (fun _ => (StreamEvent.endEvent, [StreamEvent.errorEvent 7]))).2 = 1 := by
  decide

/-- Witness for claim C2: a bidirectional first attempt whose stream
confirms the flushed request, delivers data and then an error succeeds
without a retry and surfaces the error on the returned stream. -/
theorem requestStream_retry_semantics_witness :
    requestStreamRun (fun _ => (false : Bool))
        (fun _ => (StreamEvent.writeSuccess,
          [StreamEvent.dataEvent, StreamEvent.errorEvent (3 : Nat)])) =
      (Except.ok (initializeStreamRun
          ([StreamEvent.writeSuccess] ++
            StreamEvent.dataEvent :: [StreamEvent.errorEvent 3])), 1)
    ∧ (3 : Nat) ∈ (initializeStreamRun
        ([StreamEvent.writeSuccess] ++
          StreamEvent.dataEvent :: [StreamEvent.errorEvent 3])).surfacedErrors :=
  (requestStream_retry_semantics (fun _ => false)
    (fun _ => (StreamEvent.writeSuccess,
      [StreamEvent.dataEvent, StreamEvent.errorEvent 3])) 3
    [StreamEvent.writeSuccess] [StreamEvent.errorEvent 3]).2 rfl
    (by decide) (by decide)

/-- Claim C1: `runTransaction` with `readOnly: true` passes an effective
maximum attempt count of exactly 1 to the transaction; with `readOnly`
absent or `false` and `maxAttempts` omitted — or with no options at all —
the effective maximum attempt count is `DEFAULT_MAX_TRANSACTION_ATTEMPTS`,
which is 5. -/
theorem runTransaction_effective_maxAttempts (o : TransactionOptions) :
    (o.readOnly = some true →
      runTransactionSetup (some o) = Except.ok ⟨1, true, o.readTime⟩)
    ∧ ((o.readOnly = none ∨ o.readOnly = some false) → o.maxAttempts = none →
        runTransactionSetup (some o) =
          Except.ok ⟨DEFAULT_MAX_TRANSACTION_ATTEMPTS, false, none⟩)
    ∧ runTransactionSetup none =
        Except.ok ⟨DEFAULT_MAX_TRANSACTION_ATTEMPTS, false, none⟩
    ∧ DEFAULT_MAX_TRANSACTION_ATTEMPTS = 5 := by
  refine ⟨?_, ?_, rfl, rfl⟩
  · intro h
    simp [runTransactionSetup, h]
  · intro hro hmax
    rcases hro with h | h <;>
      simp [runTransactionSetup, h, hmax, validateInteger, jsOrDefault]

/-- Witness for claim C1: a read-only options object yields one attempt and
an empty options object yields five. -/
theorem runTransaction_effective_maxAttempts_witness :
    runTransactionSetup (some ⟨some true, none, none⟩) = Except.ok ⟨1, true, none⟩
    ∧ runTransactionSetup (some ⟨none, none, none⟩) = Except.ok ⟨5, false, none⟩ :=
  ⟨(runTransaction_effective_maxAttempts ⟨some true, none, none⟩).1 rfl,
   (runTransaction_effective_maxAttempts ⟨none, none, none⟩).2.1 (Or.inl rfl) rfl⟩

/-- Claim C8, amended: with `readOnly` absent or `false`, a `maxAttempts`
value that is present but not an integer greater than or equal to 1 makes
the call fail with a validation error before any server communication; with
`readOnly: true`, however, `maxAttempts` is ignored and never validated. -/
theorem transactionOptions_maxAttempts_validation (o : TransactionOptions) (q : ℚ) :
    ((o.readOnly = none ∨ o.readOnly = some false) → o.maxAttempts = some q →
      (q.den ≠ 1 ∨ q < 1) →
      ∃ msg, runTransactionSetup (some o) = Except.error msg)
    ∧ (o.readOnly = some true →
        runTransactionSetup (some o) = Except.ok ⟨1, true, o.readTime⟩) := by
  constructor
  · intro hro hmax hq
    have hv : validateInteger (some q) = false := by
      rcases hq with h1 | h2
      · simp [validateInteger, h1]
      · simp [validateInteger, not_le.mpr h2]
    refine ⟨("Value for argument \"transactionOptions.maxAttempts\" is not a valid integer."), ?_⟩
    rcases hro with h | h <;>
      simp [runTransactionSetup, h, hmax, hv]
  · intro h
    simp [runTransactionSetup, h]

/-- Counterexample to claim C8 as stated: an options object with
`readOnly: true` and `maxAttempts: 0` — present but not an integer ≥ 1 —
does not fail validation; the call proceeds with one attempt. -/
theorem transactionOptions_maxAttempts_validation_counterexample :
    runTransactionSetup (some ⟨some true, none, some 0⟩) =
      Except.ok ⟨1, true, none⟩
    ∧ validateInteger (some 0) = false := by
  constructor
  · rfl
  · decide

/-- Witness for claim C8: with `readOnly` absent, `maxAttempts: 0` is
rejected by validation. -/
theorem transactionOptions_maxAttempts_validation_witness :
    ∃ msg, runTransactionSetup (some ⟨none, none, some 0⟩) = Except.error msg :=
  (transactionOptions_maxAttempts_validation ⟨none, none, some 0⟩ 0).1
    (Or.inl rfl) rfl (Or.inr (by norm_num))

/- ## Lemmas about doc() / collection() -/

/-- Splitting never yields an empty segment list. -/
theorem splitSegsAux_ne_nil (cs : List Char) :
    ∀ cur, splitSegsAux cur cs ≠ [] := by
  induction cs with
  | nil => intro cur; simp [splitSegsAux]
  | cons c cs ih =>
    intro cur
    simp only [splitSegsAux]
    split
    · simp
    · exact ih _

/-- A decomposed resource path has at least one segment. -/
theorem splitSegs_ne_nil (path : String) : splitSegs path ≠ [] :=
  splitSegsAux_ne_nil path.data []

/-- Claim C7: `doc(path)` throws exactly when the path is invalid or its
segment count is not even, `collection(path)` throws exactly when the path
is invalid or its segment count is not odd, and on success each returns a
reference to exactly the given path (its decomposed segments). -/
theorem doc_collection_path_shape (path : String) :
    ((∃ msg, docMethod path = Except.error msg) ↔
      isValidResourcePath path = false ∨ (splitSegs path).length % 2 ≠ 0)
    ∧ ((∃ msg, collectionMethod path = Except.error msg) ↔
      isValidResourcePath path = false ∨ (splitSegs path).length % 2 ≠ 1)
    ∧ (∀ segs, docMethod path = Except.ok segs → segs = splitSegs path)
    ∧ (∀ segs, collectionMethod path = Except.ok segs → segs = splitSegs path) := by
  have hpos : 0 < (splitSegs path).length :=
    List.length_pos.mpr (splitSegs_ne_nil path)
  refine ⟨?_, ?_, ?_, ?_⟩
  · by_cases hv : isValidResourcePath path = true
    · by_cases he : (splitSegs path).length % 2 = 0
      · have hd : isDocumentPath (splitSegs path) = true := by
          simp [isDocumentPath, he, hpos]
        simp [docMethod, hv, hd, he]
      · have hd : isDocumentPath (splitSegs path) = false := by
          simp [isDocumentPath, he]
        simp [docMethod, hv, hd, he]
    · have hv' : isValidResourcePath path = false := by simpa using hv
      simp [docMethod, hv']
  · by_cases hv : isValidResourcePath path = true
    · by_cases he : (splitSegs path).length % 2 = 1
      · have hc : isCollectionPath (splitSegs path) = true := by
          simp [isCollectionPath, he]
        simp [collectionMethod, hv, hc, he]
      · have hc : isCollectionPath (splitSegs path) = false := by
          simp [isCollectionPath, he]
        simp [collectionMethod, hv, hc, he]
    · have hv' : isValidResourcePath path = false := by simpa using hv
      simp [collectionMethod, hv']
  · intro segs h
    by_cases hv : isValidResourcePath path = true
    · by_cases hd : isDocumentPath (splitSegs path) = true
      · simp [docMethod, hv, hd] at h
        exact h.symm
      · have hd' : isDocumentPath (splitSegs path) = false := by simpa using hd
        simp [docMethod, hv, hd'] at h
    · have hv' : isValidResourcePath path = false := by simpa using hv
      simp [docMethod, hv'] at h
  · intro segs h
    by_cases hv : isValidResourcePath path = true
    · by_cases hc : isCollectionPath (splitSegs path) = true
      · simp [collectionMethod, hv, hc] at h
        exact h.symm
      · have hc' : isCollectionPath (splitSegs path) = false := by simpa using hc
        simp [collectionMethod, hv, hc'] at h
    · have hv' : isValidResourcePath path = false := by simpa using hv
      simp [collectionMethod, hv'] at h

/-- Witness for claim C7: `col/doc` is accepted by `doc` and a path with an
empty segment is rejected by `collection`. -/
theorem doc_collection_path_shape_witness :
    (¬ ∃ msg, docMethod ("col/doc") = Except.error msg)
    ∧ (∃ msg, collectionMethod ("col//x") = Except.error msg) := by
  constructor
  · intro hex
    have h := (doc_collection_path_shape ("col/doc")).1.mp hex
    revert h
    decide
  · exact (doc_collection_path_shape ("col//x")).2.1.mpr (by decide)

/-- Claim C5, amended: when `FIRESTORE_EMULATOR_HOST` is set, the transport
target hostname is taken from the variable (overriding any `host` in the
user settings), SSL is disabled (overriding any `ssl` in the user settings),
and the port is taken from the variable only when the user settings carry no
`port` of their own; the consumed `host` setting is removed. -/
theorem emulator_host_settings (st : ClientState) (s : Settings) (h : HostSpec) :
    ((validateAndApplySettings (some h) st s).settings.servicePath = some h.hostname)
    ∧ ((validateAndApplySettings (some h) st s).settings.ssl = some false)
    ∧ (s.port = none →
        (validateAndApplySettings (some h) st s).settings.port = h.port)
    ∧ (∀ p, s.port = some p →
        (validateAndApplySettings (some h) st s).settings.port = some p)
    ∧ ((validateAndApplySettings (some h) st s).settings.host = none) := by
  unfold validateAndApplySettings
  cases hp : h.port <;> cases sp : s.port <;>
    cases hpid : s.projectId <;> simp [hp, sp, hpid]

/-- Counterexample to claim C5 as stated: with the emulator variable set to
`localhost:8080` but the user settings carrying `port: 1234`, the stored
port stays 1234 — the port is not taken from the variable. -/
theorem emulator_host_settings_counterexample :
    (validateAndApplySettings (some ⟨("localhost"), some 8080⟩)
        ⟨⟨none, none, none, none, none, none, none, none⟩, false, none, 0, 0, false⟩
        ⟨none, some ⟨("example.com"), some 9999⟩, some true, none, none,
          some 1234, none, none⟩).settings.port = some 1234
    ∧ some (1234 : Nat) ≠ some (8080 : Nat) := by
  constructor
  · rfl
  · decide

/-- Witness for claim C5: with no user port, the emulator's host and port
are installed and SSL is disabled. -/
theorem emulator_host_settings_witness :
    (validateAndApplySettings (some ⟨("localhost"), some 8080⟩)
        ⟨⟨none, none, none, none, none, none, none, none⟩, false, none, 0, 0, false⟩
        ⟨none, none, some true, none, none, none, none, none⟩).settings.port
      = some 8080 :=
  (emulator_host_settings
    ⟨⟨none, none, none, none, none, none, none, none⟩, false, none, 0, 0, false⟩
    ⟨none, none, some true, none, none, none, none, none⟩
    ⟨("localhost"), some 8080⟩).2.2.1 rfl

/-- Claim C9: `terminate()` rejects exactly when the listener count or the
open-BulkWriter count is positive, in which case the client state (and in
particular the pool) is untouched; it delegates to the pool's terminate
exactly when both counts are zero. -/
theorem terminate_requires_idle_client (st : ClientState)
    (hl : 0 ≤ st.registeredListenersCount) (hb : 0 ≤ st.bulkWritersCount) :
    ((terminateMethod st).2.isSome = true ↔
      0 < st.registeredListenersCount ∨ 0 < st.bulkWritersCount)
    ∧ ((terminateMethod st).2.isSome = true → (terminateMethod st).1 = st)
    ∧ ((terminateMethod st).2 = none ↔
      st.registeredListenersCount = 0 ∧ st.bulkWritersCount = 0)
    ∧ ((terminateMethod st).2 = none →
      (terminateMethod st).1 = { st with poolTerminated := true }) := by
  unfold terminateMethod
  split
  · rename_i hc
    refine ⟨?_, ?_, ?_, ?_⟩ <;> simp_all <;> omega
  · rename_i hc
    refine ⟨?_, ?_, ?_, ?_⟩ <;> simp_all <;> omega

/-- Witness for claim C9: a client with zero listeners and zero BulkWriter
instances delegates to the pool's terminate. -/
theorem terminate_requires_idle_client_witness :
    (terminateMethod
        ⟨⟨none, none, none, none, none, none, none, none⟩, false, none, 0, 0, false⟩).1 =
      { (⟨⟨none, none, none, none, none, none, none, none⟩, false, none, 0, 0,
          false⟩ : ClientState) with poolTerminated := true } :=
  (terminate_requires_idle_client
    ⟨⟨none, none, none, none, none, none, none, none⟩, false, none, 0, 0, false⟩
    (by decide) (by decide)).2.2.2 (by decide)

/-- Claim C10: once the settings are frozen, every `settings()` call throws
and leaves the state — in particular the stored settings — unchanged; a
successful `settings()` call and `initializeIfNeeded` both set the frozen
flag, and no operation ever clears it. -/
theorem settings_frozen_invariant (env : Option HostSpec) (st : ClientState)
    (s : Settings) (argsValid : Bool) (detect : Except String String) :
    (st.settingsFrozen = true →
      (settingsMethod env st s argsValid).1 = st
      ∧ (settingsMethod env st s argsValid).2.isSome = true)
    ∧ ((settingsMethod env st s argsValid).2 = none →
        (settingsMethod env st s argsValid).1.settingsFrozen = true)
    ∧ (initializeIfNeeded st detect).1.settingsFrozen = true
    ∧ (st.settingsFrozen = true →
        (terminateMethod st).1.settingsFrozen = true) := by
  refine ⟨?_, ?_, ?_, ?_⟩
  · intro h
    unfold settingsMethod
    by_cases ha : argsValid <;> simp [ha, h]
  · intro h2
    unfold settingsMethod at h2 ⊢
    by_cases ha : argsValid
    · by_cases hf : st.settingsFrozen
      · simp [ha, hf] at h2
      · simp [ha, hf]
    · simp [ha] at h2
  · unfold initializeIfNeeded
    by_cases hssl : st.settings.ssl = some false
    · simp only [hssl, if_true]
      cases hpid : st.projectId with
      | some pid => simp [hpid]
      | none => cases detect <;> simp [hpid]
    · simp only [hssl, if_false]
      cases hpid : st.projectId with
      | some pid => simp [hpid]
      | none => cases detect <;> simp [hpid]
  · intro h
    unfold terminateMethod
    split <;> simp [h]

/-- Witness for claim C10: with the settings frozen, a `settings()` call
throws and leaves the state unchanged. -/
theorem settings_frozen_invariant_witness :
    (settingsMethod none
        ⟨⟨none, none, none, none, none, none, none, none⟩, true, none, 0, 0, false⟩
        ⟨none, none, none, none, none, none, none, none⟩ true).1 =
      ⟨⟨none, none, none, none, none, none, none, none⟩, true, none, 0, 0, false⟩ :=
  ((settings_frozen_invariant none
    ⟨⟨none, none, none, none, none, none, none, none⟩, true, none, 0, 0, false⟩
    ⟨none, none, none, none, none, none, none, none⟩ true
    (Except.ok ("p"))).1 rfl).1

/- ## Lemmas about createCallOptions -/

/-- Helper: `find?` skips a block in which nothing satisfies the predicate. -/
theorem find?_append_of_none (p : (String × String) → Bool) :
    ∀ (l l2 : List (String × String)), l.find? p = none →
      (l ++ l2).find? p = l2.find? p := by
  intro l
  induction l with
  | nil => intro l2 _; rfl
  | cons a l ih =>
    intro l2 h
    cases hpa : p a with
    | true => rw [List.find?_cons_of_pos _ hpa] at h; exact absurd h (by simp)
    | false =>
      rw [List.find?_cons_of_neg _ (by simp [hpa])] at h
      rw [List.cons_append, List.find?_cons_of_neg _ (by simp [hpa])]
      exact ih l2 h

/-- Claim C6, amended: the call options of every funnelled call carry the
`google-cloud-resource-prefix` routing header; its value is the database
root resource name derived from the project ID whenever neither the
client-wide nor the per-method custom headers bind that key themselves
(custom headers, spread after the routing header, would override it). -/
theorem callOptions_resource_header (projectId : String)
    (custom mcustom : List (String × String)) :
    (headerValue (callOptionsHeaders projectId custom mcustom)
        CLOUD_RESOURCE_HEADER).isSome = true
    ∧ ((custom ++ mcustom).all
          (fun p => !(p.1 == CLOUD_RESOURCE_HEADER)) = true →
        headerValue (callOptionsHeaders projectId custom mcustom)
            CLOUD_RESOURCE_HEADER = some (formattedName projectId)) := by
  have hrev : (callOptionsHeaders projectId custom mcustom).reverse =
      (custom ++ mcustom).reverse ++
        [(CLOUD_RESOURCE_HEADER, formattedName projectId)] := by
    simp [callOptionsHeaders]
  constructor
  · cases hfind : ((custom ++ mcustom).reverse.find?
        (fun p => p.1 == CLOUD_RESOURCE_HEADER)) with
    | none =>
      rw [headerValue, hrev, find?_append_of_none _ _ _ hfind]
      simp [List.find?_cons]
    | some q =>
      rw [headerValue, hrev]
      have : ((custom ++ mcustom).reverse ++
          [(CLOUD_RESOURCE_HEADER, formattedName projectId)]).find?
            (fun p => p.1 == CLOUD_RESOURCE_HEADER) = some q := by
        rw [List.find?_append, hfind]
        rfl
      rw [this]
      rfl
  · intro hall
    have hnone : ((custom ++ mcustom).reverse.find?
        (fun p => p.1 == CLOUD_RESOURCE_HEADER)) = none := by
      rw [List.find?_eq_none]
      intro x hx
      have hx' : x ∈ custom ++ mcustom := List.mem_reverse.mp hx
      have := List.all_eq_true.mp hall x hx'
      simpa using this
    rw [headerValue, hrev, find?_append_of_none _ _ _ hnone]
    simp [List.find?_cons]

/-- Counterexample to claim C6 as stated: a client-wide custom header with
the same key overrides the routing header, so the header's value is not the
database root resource name. -/
theorem callOptions_resource_header_counterexample :
    headerValue
        (callOptionsHeaders ("p") [(CLOUD_RESOURCE_HEADER, ("x"))] [])
        CLOUD_RESOURCE_HEADER = some ("x")
    ∧ some ("x") ≠ some (formattedName ("p")) := by
  constructor
  · rfl
  · decide

/-- Witness for claim C6: with unrelated custom headers the routing header
carries the database root resource name for project `p`. -/
theorem callOptions_resource_header_witness :
    headerValue
        (callOptionsHeaders ("p") [(("x-goog-api-client"), ("v"))] [])
        CLOUD_RESOURCE_HEADER =
      some ("projects/p/databases/(default)") :=
  (callOptions_resource_header ("p") [(("x-goog-api-client"), ("v"))] []).2
    (by decide)

end FirestoreSpec
